import Mathlib

/-!
Signal handling of the proxy (`signals.go`)

A shallow embedding of `Context.signalHandler` and `Context.childSignalHandler`.
Both functions are loops over channels that perform calls on collaborators.
A run is modelled as a function from the finite sequence of values the
channels deliver to the trace of calls performed, together with the state
left behind and a flag telling whether the function returned (a run that has
consumed all delivered values without returning is blocked on its channel).
-/

namespace Ghostunnel

/-- Values of `syscall.Signal`: the five constants named in `signals.go`, and
any other signal number. -/
inductive Signal
  | SIGINT
  | SIGTERM
  | SIGCHLD
  | SIGUSR1
  | SIGKILL
  | other (n : Nat)
  deriving DecidableEq, Repr

/-- Go `error` values, identified with their message. -/
abbrev Error := String

/-- An argument passed to `logger.Printf` after the format string. -/
inductive Arg
  | sig (s : Signal)
  | err (e : Error)
  | pid (p : Int)
  deriving DecidableEq, Repr

/-- One call of `logger.Printf`: the format string and its arguments. -/
structure LogLine where
  format : String
  args : List Arg
  deriving DecidableEq, Repr

/-- An `io.Closer`: `key` identifies the resource, `result` is what its
`Close` method returns (`none` is a nil error). -/
structure Closer where
  key : Nat
  result : Option Error
  deriving DecidableEq, Repr

/-- The method `Close` of an `io.Closer`. -/
def Closer.Close (c : Closer) : Option Error := c.result

/-- The calls `signals.go` performs on its collaborators. -/
inductive Call
  /-- `logger.Printf(format, args...)` -/
  | log (l : LogLine)
  /-- `signal.Notify(signals, sigs...)` -/
  | notify (sigs : List Signal)
  /-- `signal.Stop(signals)` -/
  | stop
  /-- `go context.statusHTTP.Shutdown(nil)` -/
  | statusShutdown
  /-- `atomic.StoreInt32(&proxy.quit, v)` -/
  | storeQuit (v : Int)
  /-- `closeable.Close()` -/
  | close (c : Closer)
  /-- `context.status.Reloading()` -/
  | statusReloading
  /-- `context.cert.reload()` -/
  | certReload
  /-- `context.status.Listening()` -/
  | statusListening
  /-- `syscall.Kill(pid, sig)` -/
  | kill (pid : Int) (sig : Signal)
  /-- `exitFunc(code)` -/
  | exit (code : Int)
  deriving DecidableEq, Repr

/-- An entry of a trace: a call, or `time.AfterFunc(d, f)` where `f` is given
by the calls the function value performs when the timer runs it. -/
inductive Effect
  | call (c : Call)
  | afterFunc (d : Int) (f : List Call)
  deriving DecidableEq, Repr

/-- The fields of `Context` read by `signals.go`.  `statusHTTP` tells whether
`context.statusHTTP != nil`; `child` is `none` when `context.child == nil`
and otherwise holds `context.child.Process.Pid` (a process id, hence a
positive `int` whose negation does not wrap); `cert` holds the results of the
successive calls of `context.cert.reload()`. -/
structure Context where
  statusHTTP : Bool
  child : Option Int
  cert : List (Option Error)
  deriving DecidableEq, Repr

/-- The field of `proxy` written by `signals.go`. -/
structure Proxy where
  quit : Int
  deriving DecidableEq, Repr

/-- The method `context.cert.reload()`: returns the next result and the
certificate manager afterwards; once the listed results are used up every
further call succeeds. -/
def Cert.reload : List (Option Error) → Option Error × List (Option Error)
  | [] => (none, [])
  | r :: rs => (r, rs)

/-- What the `select` of `signalHandler` receives: a signal from the channel
`signals`, or a value from `context.watcher`. -/
inductive Trigger
  | signal (sig : Signal)
  | watcher
  deriving DecidableEq, Repr

/-- The result of running `signalHandler` on the delivered triggers. -/
structure Outcome where
  trace : List Effect
  returned : Bool
  proxy : Proxy
  context : Context
  pending : List Trigger
  deriving DecidableEq, Repr

/-- The function value passed to `time.AfterFunc` (lines 50-59). -/
def onExpire (context : Context) : List Call :=
  [Call.log ⟨"graceful shutdown timeout: forcing exit", []⟩]
    ++ (match context.child with
        | some pid => [Call.kill (-pid) Signal.SIGKILL]
        | none => [])
    ++ [Call.exit 1]

/-- The loop `for _, closeable := range closeables { closeable.Close() }`;
the value returned by `Close` is dropped. -/
def closeAll : List Closer → List Effect
  | [] => []
  | closeable :: rest =>
    let _ := closeable.Close
    Effect.call (Call.close closeable) :: closeAll rest

/-- The `for { select { ... } }` loop of `signalHandler` (lines 36-88).
`shutdownTimeout` is the value of the flag `*shutdownTimeout`. -/
def signalLoop (shutdownTimeout : Int) (closeables : List Closer) :
    Context → Proxy → List Trigger → Outcome
  | context, proxy, [] =>
    { trace := [], returned := false, proxy := proxy, context := context, pending := [] }
  | context, proxy, Trigger.signal sig :: rest =>
    if sig = Signal.SIGINT ∨ sig = Signal.SIGTERM ∨ sig = Signal.SIGCHLD then
      { trace :=
          [Effect.call (Call.log ⟨"received %s, shutting down", [Arg.sig sig]⟩)]
            ++ (if context.statusHTTP then [Effect.call Call.statusShutdown] else [])
            ++ [Effect.afterFunc shutdownTimeout (onExpire context)]
            ++ [Effect.call (Call.storeQuit 1)]
            ++ closeAll closeables
            ++ [Effect.call (Call.log ⟨"shutdown proxy, waiting for drain/child exit", []⟩)],
        returned := true,
        proxy := { proxy with quit := 1 },
        context := context,
        pending := rest }
    else if sig = Signal.SIGUSR1 then
      let r := Cert.reload context.cert
      let out := signalLoop shutdownTimeout closeables { context with cert := r.2 } proxy rest
      { out with trace :=
          [Effect.call (Call.log ⟨"received %s, reloading certificates", [Arg.sig sig]⟩),
           Effect.call Call.statusReloading,
           Effect.call Call.certReload]
            ++ (match r.1 with
                | some err => [Effect.call (Call.log ⟨"error reloading: %s", [Arg.err err]⟩)]
                | none => [])
            ++ [Effect.call (Call.log ⟨"reloading complete", []⟩),
                Effect.call Call.statusListening]
            ++ out.trace }
    else
      signalLoop shutdownTimeout closeables context proxy rest
  | context, proxy, Trigger.watcher :: rest =>
    let r := Cert.reload context.cert
    let out := signalLoop shutdownTimeout closeables { context with cert := r.2 } proxy rest
    { out with trace :=
        [Effect.call Call.statusReloading,
         Effect.call Call.certReload]
          ++ (match r.1 with
              | some err => [Effect.call (Call.log ⟨"error reloading: %s", [Arg.err err]⟩)]
              | none => [])
          ++ [Effect.call (Call.log ⟨"reloading complete", []⟩),
              Effect.call Call.statusListening]
          ++ out.trace }

/-- The method `Context.signalHandler` (lines 31-89): subscribe, run the loop,
and on return run the deferred `signal.Stop`. -/
def signalHandler (shutdownTimeout : Int) (closeables : List Closer)
    (context : Context) (proxy : Proxy) (triggers : List Trigger) : Outcome :=
  let out := signalLoop shutdownTimeout closeables context proxy triggers
  { out with trace :=
      [Effect.call (Call.notify
          [Signal.SIGUSR1, Signal.SIGTERM, Signal.SIGINT, Signal.SIGCHLD])]
        ++ out.trace
        ++ (if out.returned then [Effect.call Call.stop] else []) }

/-- The result of running `childSignalHandler` on the delivered signals. -/
structure ChildOutcome where
  trace : List Effect
  returned : Bool
  deriving DecidableEq, Repr

/-- The `for` loop of `childSignalHandler` (lines 101-106) for a child with
process id `pid`. The channel is fed by `signal.Notify`, whose values are
`syscall.Signal` values, so the type assertion on the received value holds. -/
def forwardLoop (pid : Int) : List Signal → List Effect
  | [] => []
  | sig :: rest =>
    Effect.call (Call.log ⟨"sending %s to child (pid = %d)", [Arg.sig sig, Arg.pid pid]⟩)
      :: Effect.call (Call.kill (-pid) sig)
      :: forwardLoop pid rest

/-- The method `Context.childSignalHandler` (lines 92-107). The loop has no
exit, so with a child the function never returns and the deferred
`signal.Stop` never runs. -/
def childSignalHandler (context : Context) (sigs : List Signal) : ChildOutcome :=
  match context.child with
  | none => { trace := [], returned := true }
  | some pid =>
    { trace :=
        Effect.call (Call.notify [Signal.SIGTERM, Signal.SIGINT]) :: forwardLoop pid sigs,
      returned := false }

/-- The spec's termination triggers: SIGINT, SIGTERM and SIGCHLD. -/
def isTermination : Trigger → Bool
  | Trigger.signal sig =>
    decide (sig = Signal.SIGINT ∨ sig = Signal.SIGTERM ∨ sig = Signal.SIGCHLD)
  | Trigger.watcher => false

/-- The spec's reload triggers: SIGUSR1 and a watcher notification. -/
def isReload : Trigger → Bool
  | Trigger.signal sig => decide (sig = Signal.SIGUSR1)
  | Trigger.watcher => true

/-- The spec's termination sequence: arm the timer, store 1 into
`proxy.quit`, close all closeables in order. -/
def terminationSequence (shutdownTimeout : Int) (context : Context)
    (closeables : List Closer) : List Effect :=
  [Effect.afterFunc shutdownTimeout (onExpire context), Effect.call (Call.storeQuit 1)]
    ++ closeables.map (fun c => Effect.call (Call.close c))

/-- Effects that belong to the termination sequence: arming a timer, storing
into `proxy.quit`, closing a closeable. -/
def Effect.isTerminationStep : Effect → Bool
  | Effect.afterFunc _ _ => true
  | Effect.call (Call.storeQuit _) => true
  | Effect.call (Call.close _) => true
  | _ => false

/-- The effect is a call of `context.cert.reload()`. -/
def Effect.isCertReload : Effect → Bool
  | Effect.call Call.certReload => true
  | _ => false

/-- The effect is a call of `logger.Printf`. -/
def Effect.isLog : Effect → Bool
  | Effect.call (Call.log _) => true
  | _ => false

/-- The effect is a call on the status reporter or the credential manager. -/
def Effect.isStatusOrCert : Effect → Bool
  | Effect.call Call.statusReloading => true
  | Effect.call Call.certReload => true
  | Effect.call Call.statusListening => true
  | _ => false

/-- The call is a `syscall.Kill`. -/
def Call.isKill : Call → Bool
  | Call.kill _ _ => true
  | _ => false

/-- The effect sends a signal now, or arms a timer whose function sends one. -/
def Effect.kills : Effect → Bool
  | Effect.call c => c.isKill
  | Effect.afterFunc _ f => f.any Call.isKill

/-- The effects of one trigger that is not a termination trigger, given the
result `r` of the call of `context.cert.reload()` it may make. -/
def stepEffects (t : Trigger) (r : Option Error) : List Effect :=
  match t with
  | Trigger.signal sig =>
    if sig = Signal.SIGUSR1 then
      [Effect.call (Call.log ⟨"received %s, reloading certificates", [Arg.sig sig]⟩),
       Effect.call Call.statusReloading,
       Effect.call Call.certReload]
        ++ (match r with
            | some err => [Effect.call (Call.log ⟨"error reloading: %s", [Arg.err err]⟩)]
            | none => [])
        ++ [Effect.call (Call.log ⟨"reloading complete", []⟩),
            Effect.call Call.statusListening]
    else []
  | Trigger.watcher =>
    [Effect.call Call.statusReloading,
     Effect.call Call.certReload]
      ++ (match r with
          | some err => [Effect.call (Call.log ⟨"error reloading: %s", [Arg.err err]⟩)]
          | none => [])
      ++ [Effect.call (Call.log ⟨"reloading complete", []⟩),
          Effect.call Call.statusListening]

/-- The context after one trigger that is not a termination trigger. -/
def stepContext (t : Trigger) (context : Context) : Context :=
  if isReload t then { context with cert := (Cert.reload context.cert).2 } else context

/-- The `syscall.Kill` calls made directly in a trace, in order, as pairs of
target and signal. -/
def killsOf : List Effect → List (Int × Signal)
  | [] => []
  | Effect.call (Call.kill pid sig) :: rest => (pid, sig) :: killsOf rest
  | _ :: rest => killsOf rest

/-- The call is an `exitFunc` call. -/
def Call.isExit : Call → Bool
  | Call.exit _ => true
  | _ => false

/-- Effects of shutting down: a store into `proxy.quit`, a `Close`, arming a
timer, the status-endpoint shutdown request, a `syscall.Kill`. -/
def Effect.isShutdownEffect : Effect → Bool
  | Effect.afterFunc _ _ => true
  | Effect.call (Call.storeQuit _) => true
  | Effect.call (Call.close _) => true
  | Effect.call Call.statusShutdown => true
  | Effect.call (Call.kill _ _) => true
  | _ => false

/-- Some log line of the trace carries the error `err` as an argument. -/
def logsError (err : Error) (trace : List Effect) : Bool :=
  trace.any (fun e =>
    match e with
    | Effect.call (Call.log l) => decide (Arg.err err ∈ l.args)
    | _ => false)

/-- The spec's reading of release failures: every closeable whose `Close`
returns an error has a log line for it in the trace. -/
def closeFailuresLogged (closeables : List Closer) (trace : List Effect) : Bool :=
  closeables.all (fun c =>
    match c.Close with
    | some err => logsError err trace
    | none => true)

/-- The spec's reading of trigger announcements: the first effect of handling
the trigger is a log line. -/
def announcedFirst (effects : List Effect) : Bool :=
  match effects.head? with
  | some e => e.isLog
  | none => false

/-- The effect is a call of `Close` on a closeable. -/
def Effect.isClose : Effect → Bool
  | Effect.call (Call.close _) => true
  | _ => false

/-! ## Unfolding the loop -/

theorem closeAll_eq_map (closeables : List Closer) :
    closeAll closeables = closeables.map (fun c => Effect.call (Call.close c)) := by
  induction closeables with
  | nil => rfl
  | cons c cs ih => simp [closeAll, ih]

theorem onExpire_congr (c₁ c₂ : Context) (h : c₁.child = c₂.child) :
    onExpire c₁ = onExpire c₂ := by
  simp [onExpire, h]

theorem signalLoop_termination (T : Int) (cl : List Closer) (ctx : Context) (p : Proxy)
    (sig : Signal) (rest : List Trigger)
    (h : isTermination (Trigger.signal sig) = true) :
    signalLoop T cl ctx p (Trigger.signal sig :: rest) =
      { trace :=
          [Effect.call (Call.log ⟨"received %s, shutting down", [Arg.sig sig]⟩)]
            ++ (if ctx.statusHTTP then [Effect.call Call.statusShutdown] else [])
            ++ terminationSequence T ctx cl
            ++ [Effect.call (Call.log ⟨"shutdown proxy, waiting for drain/child exit", []⟩)],
        returned := true,
        proxy := { p with quit := 1 },
        context := ctx,
        pending := rest } := by
  have h' : sig = Signal.SIGINT ∨ sig = Signal.SIGTERM ∨ sig = Signal.SIGCHLD := by
    simpa [isTermination] using h
  rw [signalLoop, if_pos h']
  simp [terminationSequence, closeAll_eq_map]

theorem signalLoop_step (T : Int) (cl : List Closer) (ctx : Context) (p : Proxy)
    (t : Trigger) (rest : List Trigger) (h : isTermination t = false) :
    signalLoop T cl ctx p (t :: rest) =
      { signalLoop T cl (stepContext t ctx) p rest with
        trace := stepEffects t (Cert.reload ctx.cert).1
          ++ (signalLoop T cl (stepContext t ctx) p rest).trace } := by
  cases t with
  | watcher => simp [signalLoop, stepEffects, stepContext, isReload]
  | signal sig =>
    have h' : ¬ (sig = Signal.SIGINT ∨ sig = Signal.SIGTERM ∨ sig = Signal.SIGCHLD) := by
      simpa [isTermination] using h
    rw [signalLoop, if_neg h']
    by_cases hu : sig = Signal.SIGUSR1
    · simp [hu, stepEffects, stepContext, isReload]
    · simp [hu, stepEffects, stepContext, isReload]

theorem stepContext_child (t : Trigger) (ctx : Context) :
    (stepContext t ctx).child = ctx.child := by
  unfold stepContext; split <;> rfl

theorem stepContext_statusHTTP (t : Trigger) (ctx : Context) :
    (stepContext t ctx).statusHTTP = ctx.statusHTTP := by
  unfold stepContext; split <;> rfl

/-- Every effect of a trigger that is not a termination trigger is a log
line, a status call or the reload call. -/
theorem stepEffects_mem (t : Trigger) (r : Option Error) (e : Effect)
    (he : e ∈ stepEffects t r) :
    e.isLog = true ∨ e.isStatusOrCert = true := by
  revert e
  cases t with
  | watcher =>
    cases r <;> simp [stepEffects, Effect.isLog, Effect.isStatusOrCert]
  | signal sig =>
    by_cases hu : sig = Signal.SIGUSR1
    · cases r <;> simp [stepEffects, hu, Effect.isLog, Effect.isStatusOrCert]
    · simp [stepEffects, hu]

theorem isLog_or_status_not_termination (e : Effect)
    (h : e.isLog = true ∨ e.isStatusOrCert = true) :
    e.isTerminationStep = false ∧ e.kills = false := by
  rcases e with c | ⟨d, f⟩
  · cases c <;> simp_all [Effect.isLog, Effect.isStatusOrCert, Effect.isTerminationStep,
      Effect.kills, Call.isKill]
  · simp [Effect.isLog, Effect.isStatusOrCert] at h

/-- A run over triggers none of which is a termination trigger: the loop does
not return, consumes them all, leaves `proxy` alone, and performs only log,
status and reload calls. -/
theorem signalLoop_noTermination (T : Int) (cl : List Closer) (p : Proxy)
    (pre : List Trigger) (h : ∀ x ∈ pre, isTermination x = false) (ctx : Context) :
    (signalLoop T cl ctx p pre).returned = false ∧
    (signalLoop T cl ctx p pre).proxy = p ∧
    (signalLoop T cl ctx p pre).pending = [] ∧
    (signalLoop T cl ctx p pre).context.child = ctx.child ∧
    (signalLoop T cl ctx p pre).context.statusHTTP = ctx.statusHTTP ∧
    ∀ e ∈ (signalLoop T cl ctx p pre).trace, e.isLog = true ∨ e.isStatusOrCert = true := by
  induction pre generalizing ctx with
  | nil => simp [signalLoop]
  | cons t ts ih =>
    have ht : isTermination t = false := h t (List.mem_cons_self _ _)
    have hts : ∀ x ∈ ts, isTermination x = false :=
      fun x hx => h x (List.mem_cons_of_mem _ hx)
    obtain ⟨h1, h2, h3, h4, h5, h6⟩ := ih hts (stepContext t ctx)
    rw [signalLoop_step T cl ctx p t ts ht]
    refine ⟨h1, h2, h3, ?_, ?_, ?_⟩
    · simpa [stepContext_child] using h4
    · simpa [stepContext_statusHTTP] using h5
    · intro e he
      rcases List.mem_append.mp he with he | he
      · exact stepEffects_mem t _ e he
      · exact h6 e he

/-- Running the loop over `pre ++ rest`, where `pre` holds no termination
trigger, is running it over `pre` and then over `rest`. -/
theorem signalLoop_append (T : Int) (cl : List Closer) (p : Proxy)
    (pre : List Trigger) (h : ∀ x ∈ pre, isTermination x = false) (rest : List Trigger)
    (ctx : Context) :
    signalLoop T cl ctx p (pre ++ rest) =
      { signalLoop T cl (signalLoop T cl ctx p pre).context p rest with
        trace := (signalLoop T cl ctx p pre).trace
          ++ (signalLoop T cl (signalLoop T cl ctx p pre).context p rest).trace } := by
  induction pre generalizing ctx with
  | nil => simp [signalLoop]
  | cons t ts ih =>
    have ht : isTermination t = false := h t (List.mem_cons_self _ _)
    have hts : ∀ x ∈ ts, isTermination x = false :=
      fun x hx => h x (List.mem_cons_of_mem _ hx)
    rw [List.cons_append, signalLoop_step T cl ctx p t (ts ++ rest) ht,
      signalLoop_step T cl ctx p t ts ht, ih hts (stepContext t ctx)]
    simp

/-- The loop over a prefix without termination trigger followed by a
termination trigger. -/
theorem signalLoop_split (T : Int) (cl : List Closer) (ctx : Context) (p : Proxy)
    (pre : List Trigger) (sig : Signal) (post : List Trigger)
    (hpre : ∀ x ∈ pre, isTermination x = false)
    (ht : isTermination (Trigger.signal sig) = true) :
    signalLoop T cl ctx p (pre ++ Trigger.signal sig :: post) =
      { trace := (signalLoop T cl ctx p pre).trace
          ++ ([Effect.call (Call.log ⟨"received %s, shutting down", [Arg.sig sig]⟩)]
            ++ (if ctx.statusHTTP then [Effect.call Call.statusShutdown] else [])
            ++ terminationSequence T ctx cl
            ++ [Effect.call (Call.log ⟨"shutdown proxy, waiting for drain/child exit", []⟩)]),
        returned := true,
        proxy := { p with quit := 1 },
        context := (signalLoop T cl ctx p pre).context,
        pending := post } := by
  obtain ⟨-, -, -, h4, h5, -⟩ := signalLoop_noTermination T cl p pre hpre ctx
  rw [signalLoop_append T cl p pre hpre, signalLoop_termination T cl _ p sig post ht]
  simp [h5, terminationSequence, onExpire_congr _ _ h4]

theorem filter_terminationSequence (T : Int) (ctx : Context) (cl : List Closer) :
    (terminationSequence T ctx cl).filter Effect.isTerminationStep
      = terminationSequence T ctx cl := by
  rw [List.filter_eq_self]
  intro e he
  simp only [terminationSequence, List.mem_append, List.mem_cons, List.mem_map,
    List.mem_singleton, List.not_mem_nil, or_false] at he
  rcases he with (rfl | rfl) | ⟨c, -, rfl⟩ <;> rfl

theorem filter_noTermination (T : Int) (cl : List Closer) (p : Proxy)
    (pre : List Trigger) (h : ∀ x ∈ pre, isTermination x = false) (ctx : Context) :
    (signalLoop T cl ctx p pre).trace.filter Effect.isTerminationStep = [] := by
  rw [List.filter_eq_nil_iff]
  intro e he
  have := (isLog_or_status_not_termination e
    ((signalLoop_noTermination T cl p pre h ctx).2.2.2.2.2 e he)).1
  simp [this]

theorem filter_certReload_terminationSequence (T : Int) (ctx : Context) (cl : List Closer) :
    (terminationSequence T ctx cl).filter Effect.isCertReload = [] := by
  rw [List.filter_eq_nil_iff]
  intro e he
  simp only [terminationSequence, List.mem_append, List.mem_cons, List.mem_map,
    List.mem_singleton, List.not_mem_nil, or_false] at he
  rcases he with (rfl | rfl) | ⟨c, -, rfl⟩ <;> simp [Effect.isCertReload]

theorem stepEffects_certReload (t : Trigger) (r : Option Error) :
    ((stepEffects t r).filter Effect.isCertReload).length = if isReload t then 1 else 0 := by
  cases t with
  | watcher =>
    cases r <;> simp [stepEffects, isReload, Effect.isCertReload, List.filter_cons]
  | signal sig =>
    by_cases hu : sig = Signal.SIGUSR1
    · cases r <;> simp [stepEffects, isReload, hu, Effect.isCertReload, List.filter_cons]
    · simp [stepEffects, isReload, hu]

/-- In the loop, the number of `cert.reload` calls is the number of reload
triggers before the first termination trigger. -/
theorem signalLoop_certReload_count (T : Int) (cl : List Closer) (p : Proxy)
    (ts : List Trigger) (ctx : Context) :
    ((signalLoop T cl ctx p ts).trace.filter Effect.isCertReload).length
      = ((ts.takeWhile (fun t => !isTermination t)).filter isReload).length := by
  induction ts generalizing ctx with
  | nil => simp [signalLoop]
  | cons t ts ih =>
    cases ht : isTermination t with
    | true =>
      cases t with
      | watcher => simp [isTermination] at ht
      | signal sig =>
        rw [signalLoop_termination T cl ctx p sig ts ht]
        cases ctx.statusHTTP <;>
          simp [List.takeWhile_cons, ht, List.filter_append,
            filter_certReload_terminationSequence, Effect.isCertReload, List.filter_cons]
    | false =>
      rw [signalLoop_step T cl ctx p t ts ht]
      simp only [List.filter_append, List.length_append, stepEffects_certReload,
        ih (stepContext t ctx), List.takeWhile_cons, ht, Bool.not_false, if_true]
      cases hr : isReload t <;> simp [List.filter_cons, hr, Nat.add_comm]

/-- A timer armed by the loop has duration `T` and function `onExpire`. -/
theorem signalLoop_afterFunc (T : Int) (cl : List Closer) (p : Proxy)
    (ts : List Trigger) (ctx : Context) (d : Int) (f : List Call)
    (h : Effect.afterFunc d f ∈ (signalLoop T cl ctx p ts).trace) :
    d = T ∧ f = onExpire ctx := by
  induction ts generalizing ctx with
  | nil => simp [signalLoop] at h
  | cons t ts ih =>
    cases ht : isTermination t with
    | true =>
      cases t with
      | watcher => simp [isTermination] at ht
      | signal sig =>
        rw [signalLoop_termination T cl ctx p sig ts ht] at h
        cases hs : ctx.statusHTTP <;> simpa [hs, terminationSequence] using h
    | false =>
      rw [signalLoop_step T cl ctx p t ts ht] at h
      rcases List.mem_append.mp h with h | h
      · have := stepEffects_mem t _ _ h
        simp [Effect.isLog, Effect.isStatusOrCert] at this
      · obtain ⟨h1, h2⟩ := ih (stepContext t ctx) h
        exact ⟨h1, h2.trans (onExpire_congr _ _ (stepContext_child t ctx))⟩

theorem killsOf_forwardLoop (pid : Int) (sigs : List Signal) :
    killsOf (forwardLoop pid sigs) = sigs.map (fun s => (-pid, s)) := by
  induction sigs with
  | nil => rfl
  | cons s rest ih => simp [forwardLoop, killsOf, ih]

theorem onExpire_no_kill (ctx : Context) (h : ctx.child = none) :
    (onExpire ctx).any Call.isKill = false := by
  simp [onExpire, h, Call.isKill]

/-- Without a child no effect of the loop sends a signal, now or from a
timer. -/
theorem signalLoop_no_kill (T : Int) (cl : List Closer) (p : Proxy)
    (ts : List Trigger) (ctx : Context) (h : ctx.child = none) :
    ∀ e ∈ (signalLoop T cl ctx p ts).trace, e.kills = false := by
  induction ts generalizing ctx with
  | nil => simp [signalLoop]
  | cons t ts ih =>
    cases ht : isTermination t with
    | true =>
      cases t with
      | watcher => simp [isTermination] at ht
      | signal sig =>
        rw [signalLoop_termination T cl ctx p sig ts ht]
        have hk := onExpire_no_kill ctx h
        intro e he
        simp only [terminationSequence, List.mem_append, List.mem_cons, List.mem_map,
          List.mem_singleton, List.not_mem_nil, or_false] at he
        rcases he with ((rfl | he) | (rfl | rfl) | ⟨c, -, rfl⟩) | rfl
        · rfl
        · split at he
          · simp only [List.mem_singleton] at he
            subst he
            rfl
          · simp at he
        · simpa [Effect.kills] using hk
        · rfl
        · rfl
        · rfl
    | false =>
      rw [signalLoop_step T cl ctx p t ts ht]
      intro e he
      rcases List.mem_append.mp he with he | he
      · exact (isLog_or_status_not_termination e (stepEffects_mem t _ e he)).2
      · exact ih (stepContext t ctx) ((stepContext_child t ctx).trans h) e he

/-! ## The claims -/

/-- C1 (at-most-once termination). If the triggers are `pre ++ t :: post`
with `t` the first termination trigger, `signalHandler` returns with exactly
`post` left unprocessed and `proxy.quit = 1`; its trace is the one obtained
without `post` (later triggers produce no effect); the termination sequence
(arm the timer, store 1 into `proxy.quit`, close every closeable) occurs in it
exactly once: the trace is `before ++ terminationSequence ++ after` where
`before` and `after` hold no arming, store or close, and `after` is the final
log line and the deferred `signal.Stop`. If no trigger is a termination
trigger, the handler does not return, `proxy` is unchanged and the trace holds
no arming, store or close. -/
theorem signalHandler_terminates_once (T : Int) (cl : List Closer) (ctx : Context)
    (p : Proxy) (ts : List Trigger) :
    (∀ pre t post, ts = pre ++ t :: post →
      (∀ x ∈ pre, isTermination x = false) → isTermination t = true →
        (signalHandler T cl ctx p ts).returned = true ∧
        (signalHandler T cl ctx p ts).pending = post ∧
        (signalHandler T cl ctx p ts).proxy.quit = 1 ∧
        (signalHandler T cl ctx p ts).trace = (signalHandler T cl ctx p (pre ++ [t])).trace ∧
        (signalHandler T cl ctx p ts).trace.filter Effect.isTerminationStep
          = terminationSequence T ctx cl ∧
        ∃ before after,
          (signalHandler T cl ctx p ts).trace
            = before ++ terminationSequence T ctx cl ++ after ∧
          before.filter Effect.isTerminationStep = [] ∧
          after = [Effect.call
              (Call.log ⟨"shutdown proxy, waiting for drain/child exit", []⟩),
            Effect.call Call.stop]) ∧
    ((∀ x ∈ ts, isTermination x = false) →
        (signalHandler T cl ctx p ts).returned = false ∧
        (signalHandler T cl ctx p ts).pending = [] ∧
        (signalHandler T cl ctx p ts).proxy = p ∧
        (signalHandler T cl ctx p ts).trace.filter Effect.isTerminationStep = []) := by
  constructor
  · intro pre t post hts hpre ht
    subst hts
    cases t with
    | watcher => simp [isTermination] at ht
    | signal sig =>
      have hf := filter_noTermination T cl p pre hpre ctx
      have hs := filter_terminationSequence T ctx cl
      refine ⟨?_, ?_, ?_, ?_, ?_, ?_⟩
      · simp [signalHandler, signalLoop_split T cl ctx p pre sig post hpre ht]
      · simp [signalHandler, signalLoop_split T cl ctx p pre sig post hpre ht]
      · simp [signalHandler, signalLoop_split T cl ctx p pre sig post hpre ht]
      · simp [signalHandler, signalLoop_split T cl ctx p pre sig _ hpre ht]
      · simp only [signalHandler, signalLoop_split T cl ctx p pre sig post hpre ht]
        cases ctx.statusHTTP <;>
          simp [List.filter_append, hf, hs, Effect.isTerminationStep, List.filter_cons]
      · refine ⟨[Effect.call (Call.notify
            [Signal.SIGUSR1, Signal.SIGTERM, Signal.SIGINT, Signal.SIGCHLD])]
          ++ (signalLoop T cl ctx p pre).trace
          ++ ([Effect.call (Call.log ⟨"received %s, shutting down", [Arg.sig sig]⟩)]
            ++ (if ctx.statusHTTP then [Effect.call Call.statusShutdown] else [])), _, ?_, ?_, rfl⟩
        · simp [signalHandler, signalLoop_split T cl ctx p pre sig post hpre ht]
        · cases ctx.statusHTTP <;>
            simp [List.filter_append, hf, Effect.isTerminationStep, List.filter_cons]
  · intro h
    obtain ⟨h1, h2, h3, -, -, -⟩ := signalLoop_noTermination T cl p ts h ctx
    have hf := filter_noTermination T cl p ts h ctx
    refine ⟨?_, ?_, ?_, ?_⟩
    · simpa [signalHandler] using h1
    · simpa [signalHandler] using h3
    · simpa [signalHandler] using h2
    · simp [signalHandler, h1, List.filter_append, hf, Effect.isTerminationStep,
        List.filter_cons]

theorem signalHandler_terminates_once_witness :
    ((signalHandler 5 [⟨0, some "boom"⟩, ⟨1, none⟩] ⟨true, some 42, [some "bad"]⟩ ⟨0⟩
        [Trigger.watcher, Trigger.signal Signal.SIGTERM, Trigger.signal Signal.SIGINT]).returned
        = true ∧
      (signalHandler 5 [⟨0, some "boom"⟩, ⟨1, none⟩] ⟨true, some 42, [some "bad"]⟩ ⟨0⟩
        [Trigger.watcher, Trigger.signal Signal.SIGTERM, Trigger.signal Signal.SIGINT]).pending
        = [Trigger.signal Signal.SIGINT]) ∧
    (signalHandler 5 [⟨0, some "boom"⟩] ⟨true, some 42, []⟩ ⟨0⟩
        [Trigger.watcher, Trigger.signal Signal.SIGUSR1]).returned = false := by
  have h1 := (signalHandler_terminates_once 5 [⟨0, some "boom"⟩, ⟨1, none⟩]
    ⟨true, some 42, [some "bad"]⟩ ⟨0⟩
    [Trigger.watcher, Trigger.signal Signal.SIGTERM, Trigger.signal Signal.SIGINT]).1
    [Trigger.watcher] (Trigger.signal Signal.SIGTERM) [Trigger.signal Signal.SIGINT]
    rfl (by decide) (by decide)
  have h2 := (signalHandler_terminates_once 5 [⟨0, some "boom"⟩] ⟨true, some 42, []⟩ ⟨0⟩
    [Trigger.watcher, Trigger.signal Signal.SIGUSR1]).2 (by decide)
  exact ⟨⟨h1.1, h1.2.1⟩, h2.1⟩

/-- C2 (order of the termination effects). On a termination trigger that
follows triggers `pre` none of which is a termination trigger, the trace of
`signalHandler` is: the subscription, the effects of `pre`, the log line, the
status-endpoint shutdown request when there is a status endpoint, then the
timer armed with `shutdownTimeout`, then the store of 1 into `proxy.quit`,
then one `Close` per closeable in list order whatever the results of the
`Close` calls, then the last log line and the deferred `signal.Stop`; and the
handler has returned. -/
theorem termination_effects_in_order (T : Int) (cl : List Closer) (ctx : Context)
    (p : Proxy) (pre : List Trigger) (sig : Signal) (post : List Trigger)
    (hpre : ∀ x ∈ pre, isTermination x = false)
    (ht : isTermination (Trigger.signal sig) = true) :
    (signalHandler T cl ctx p (pre ++ Trigger.signal sig :: post)).trace =
      [Effect.call (Call.notify
          [Signal.SIGUSR1, Signal.SIGTERM, Signal.SIGINT, Signal.SIGCHLD])]
        ++ (signalLoop T cl ctx p pre).trace
        ++ [Effect.call (Call.log ⟨"received %s, shutting down", [Arg.sig sig]⟩)]
        ++ (if ctx.statusHTTP then [Effect.call Call.statusShutdown] else [])
        ++ [Effect.afterFunc T (onExpire ctx)]
        ++ [Effect.call (Call.storeQuit 1)]
        ++ cl.map (fun c => Effect.call (Call.close c))
        ++ [Effect.call (Call.log ⟨"shutdown proxy, waiting for drain/child exit", []⟩),
            Effect.call Call.stop] ∧
    (signalHandler T cl ctx p (pre ++ Trigger.signal sig :: post)).returned = true ∧
    (signalHandler T cl ctx p (pre ++ Trigger.signal sig :: post)).proxy.quit = 1 := by
  refine ⟨?_, ?_, ?_⟩ <;>
    simp [signalHandler, signalLoop_split T cl ctx p pre sig post hpre ht, terminationSequence]

theorem termination_effects_in_order_witness :
    (signalHandler 5 [⟨0, some "boom"⟩, ⟨1, none⟩] ⟨false, none, []⟩ ⟨0⟩
      ([Trigger.watcher] ++ Trigger.signal Signal.SIGCHLD :: [Trigger.watcher])).returned
      = true :=
  (termination_effects_in_order 5 [⟨0, some "boom"⟩, ⟨1, none⟩] ⟨false, none, []⟩ ⟨0⟩
    [Trigger.watcher] Signal.SIGCHLD [Trigger.watcher] (by decide) (by decide)).2.1

/-- C3 (reload and termination are mutually exclusive). For every trigger
sequence the number of `cert.reload` calls in the trace of `signalHandler` is
the number of reload triggers (SIGUSR1 or watcher notification) before the
first termination trigger; and when the sequence is `pre ++ t :: post` with
`t` its first termination trigger, the trace is the subscription and the
effects of `pre` followed by a part, starting at the log line of `t`, that
holds the whole termination sequence and no `cert.reload` call. -/
theorem reload_excluded_by_termination (T : Int) (cl : List Closer) (ctx : Context)
    (p : Proxy) (ts : List Trigger) :
    ((signalHandler T cl ctx p ts).trace.filter Effect.isCertReload).length
      = ((ts.takeWhile (fun t => !isTermination t)).filter isReload).length ∧
    (∀ pre sig post, ts = pre ++ Trigger.signal sig :: post →
      (∀ x ∈ pre, isTermination x = false) → isTermination (Trigger.signal sig) = true →
      ∃ tail,
        (signalHandler T cl ctx p ts).trace =
          [Effect.call (Call.notify
              [Signal.SIGUSR1, Signal.SIGTERM, Signal.SIGINT, Signal.SIGCHLD])]
            ++ (signalLoop T cl ctx p pre).trace ++ tail ∧
        tail.head? = some
          (Effect.call (Call.log ⟨"received %s, shutting down", [Arg.sig sig]⟩)) ∧
        tail.filter Effect.isTerminationStep = terminationSequence T ctx cl ∧
        tail.filter Effect.isCertReload = [] ∧
        ((signalLoop T cl ctx p pre).trace.filter Effect.isCertReload).length
          = (pre.filter isReload).length) := by
  constructor
  · have h := signalLoop_certReload_count T cl p ts ctx
    simp only [signalHandler, List.filter_append, List.length_append]
    rw [h]
    cases (signalLoop T cl ctx p ts).returned <;>
      simp [Effect.isCertReload, List.filter_cons]
  · intro pre sig post hts hpre ht
    subst hts
    refine ⟨[Effect.call (Call.log ⟨"received %s, shutting down", [Arg.sig sig]⟩)]
        ++ (if ctx.statusHTTP then [Effect.call Call.statusShutdown] else [])
        ++ terminationSequence T ctx cl
        ++ [Effect.call (Call.log ⟨"shutdown proxy, waiting for drain/child exit", []⟩),
            Effect.call Call.stop], ?_, ?_, ?_, ?_, ?_⟩
    · simp [signalHandler, signalLoop_split T cl ctx p pre sig post hpre ht]
    · simp
    · cases ctx.statusHTTP <;>
        simp [List.filter_append, filter_terminationSequence, Effect.isTerminationStep,
          List.filter_cons]
    · cases ctx.statusHTTP <;>
        simp [List.filter_append, filter_certReload_terminationSequence,
          Effect.isCertReload, List.filter_cons]
    · have h := signalLoop_certReload_count T cl p pre ctx
      rw [h]
      congr 1
      rw [List.takeWhile_eq_self_iff.mpr]
      intro x hx
      simp [hpre x hx]

theorem reload_excluded_by_termination_witness :
    ((signalHandler 5 [⟨0, none⟩] ⟨true, some 42, [some "bad"]⟩ ⟨0⟩
        [Trigger.watcher, Trigger.signal Signal.SIGUSR1, Trigger.signal Signal.SIGTERM,
          Trigger.watcher]).trace.filter Effect.isCertReload).length = 2 := by
  have h := (reload_excluded_by_termination 5 [⟨0, none⟩] ⟨true, some 42, [some "bad"]⟩ ⟨0⟩
    [Trigger.watcher, Trigger.signal Signal.SIGUSR1, Trigger.signal Signal.SIGTERM,
      Trigger.watcher])
  obtain ⟨tail, -, -, -, -, h5⟩ := h.2 [Trigger.watcher, Trigger.signal Signal.SIGUSR1]
    Signal.SIGTERM [Trigger.watcher] rfl (by decide) (by decide)
  rw [h.1]
  decide

/-- C4 (reload path). Handling a reload trigger `t` (SIGUSR1 or a watcher
notification) with either result `r` of `cert.reload`: the loop performs the
log line of a SIGUSR1, `status.Reloading`, `cert.reload`, the error log line
when `r` is an error, the log line of completion and `status.Listening`, and
goes on with the next trigger. Its calls on the status reporter and the
credential manager are `status.Reloading`, one `cert.reload`,
`status.Listening` for both kinds of trigger and both results, the last effect
is `status.Listening`, and the handler has not returned after the trigger. -/
theorem reload_trigger_effects (T : Int) (cl : List Closer) (ctx : Context)
    (p : Proxy) (t : Trigger) (rest : List Trigger) (ht : isReload t = true) :
    ∃ eff,
      eff = (if t = Trigger.signal Signal.SIGUSR1 then
            [Effect.call (Call.log
              ⟨"received %s, reloading certificates", [Arg.sig Signal.SIGUSR1]⟩)]
          else [])
        ++ [Effect.call Call.statusReloading, Effect.call Call.certReload]
        ++ (match (Cert.reload ctx.cert).1 with
            | some err => [Effect.call (Call.log ⟨"error reloading: %s", [Arg.err err]⟩)]
            | none => [])
        ++ [Effect.call (Call.log ⟨"reloading complete", []⟩),
            Effect.call Call.statusListening] ∧
      signalLoop T cl ctx p (t :: rest) =
        { signalLoop T cl { ctx with cert := (Cert.reload ctx.cert).2 } p rest with
          trace := eff
            ++ (signalLoop T cl { ctx with cert := (Cert.reload ctx.cert).2 } p rest).trace } ∧
      eff.filter Effect.isStatusOrCert =
        [Effect.call Call.statusReloading, Effect.call Call.certReload,
          Effect.call Call.statusListening] ∧
      eff.getLast? = some (Effect.call Call.statusListening) ∧
      (signalHandler T cl ctx p [t]).returned = false := by
  refine ⟨_, rfl, ?_, ?_, ?_, ?_⟩
  · cases t with
    | watcher => simp [signalLoop]
    | signal sig =>
      have hu : sig = Signal.SIGUSR1 := by simpa [isReload] using ht
      subst hu
      simp [signalLoop]
  · cases t with
    | watcher =>
      cases (Cert.reload ctx.cert).1 <;>
        simp [List.filter_cons, Effect.isStatusOrCert]
    | signal sig =>
      have hu : sig = Signal.SIGUSR1 := by simpa [isReload] using ht
      subst hu
      cases (Cert.reload ctx.cert).1 <;>
        simp [List.filter_cons, Effect.isStatusOrCert]
  · cases (Cert.reload ctx.cert).1 <;> simp [List.getLast?_append]
  · cases t with
    | watcher => simp [signalHandler, signalLoop]
    | signal sig =>
      have hu : sig = Signal.SIGUSR1 := by simpa [isReload] using ht
      subst hu
      simp [signalHandler, signalLoop]

theorem reload_trigger_effects_witness :
    (signalHandler 5 [⟨0, none⟩] ⟨true, some 42, [some "bad"]⟩ ⟨0⟩
      [Trigger.watcher]).returned = false := by
  obtain ⟨eff, -, -, -, -, h⟩ := reload_trigger_effects 5 [⟨0, none⟩]
    ⟨true, some 42, [some "bad"]⟩ ⟨0⟩ Trigger.watcher [] (by decide)
  exact h

/-- C5 (deadline callback). Every timer armed by `signalHandler` has duration
`shutdownTimeout` and function `onExpire`. With a child, `onExpire` logs,
sends one SIGKILL to the negated child pid and then calls `exitFunc(1)`;
without a child it logs and calls `exitFunc(1)` and sends no signal. In both
cases `exitFunc` is called once, with 1, as the last call. -/
theorem onExpire_kills_child_and_exits (T : Int) (cl : List Closer) (ctx : Context)
    (p : Proxy) (ts : List Trigger) :
    (∀ d f, Effect.afterFunc d f ∈ (signalHandler T cl ctx p ts).trace →
      d = T ∧ f = onExpire ctx) ∧
    (∀ pid, ctx.child = some pid →
      onExpire ctx = [Call.log ⟨"graceful shutdown timeout: forcing exit", []⟩,
        Call.kill (-pid) Signal.SIGKILL, Call.exit 1]) ∧
    (ctx.child = none →
      onExpire ctx = [Call.log ⟨"graceful shutdown timeout: forcing exit", []⟩,
        Call.exit 1]) ∧
    (onExpire ctx).filter Call.isExit = [Call.exit 1] ∧
    (onExpire ctx).getLast? = some (Call.exit 1) := by
  refine ⟨?_, ?_, ?_, ?_, ?_⟩
  · intro d f h
    apply signalLoop_afterFunc T cl p ts ctx d f
    simp only [signalHandler, List.mem_append, List.mem_singleton] at h
    rcases h with (h | h) | h
    · cases h
    · exact h
    · split at h <;> simp at h
  · intro pid h
    simp [onExpire, h]
  · intro h
    simp [onExpire, h]
  · cases h : ctx.child <;> simp [onExpire, h, List.filter_cons, Call.isExit]
  · cases h : ctx.child <;> simp [onExpire, h, List.getLast?_append]

theorem onExpire_kills_child_and_exits_witness :
    onExpire ⟨true, some 42, []⟩ =
        [Call.log ⟨"graceful shutdown timeout: forcing exit", []⟩,
          Call.kill (-42) Signal.SIGKILL, Call.exit 1] ∧
      onExpire ⟨true, none, []⟩ =
        [Call.log ⟨"graceful shutdown timeout: forcing exit", []⟩, Call.exit 1] :=
  ⟨(onExpire_kills_child_and_exits 5 [] ⟨true, some 42, []⟩ ⟨0⟩
      [Trigger.signal Signal.SIGTERM]).2.1 42 rfl,
   (onExpire_kills_child_and_exits 5 [] ⟨true, none, []⟩ ⟨0⟩
      [Trigger.signal Signal.SIGTERM]).2.2.1 rfl⟩

/-- C6 (forwarder). With a child of process id `pid`, for every sequence of
signals delivered to its subscription `childSignalHandler` subscribes to
SIGTERM and SIGINT and then, for each signal in order, logs and sends that
same signal to `-pid`: its `syscall.Kill` calls are exactly one per delivered
signal, in order, each with the delivered signal and target `-pid`; and it
does not return. -/
theorem childSignalHandler_forwards (ctx : Context) (pid : Int) (sigs : List Signal)
    (h : ctx.child = some pid) :
    (childSignalHandler ctx sigs).returned = false ∧
    killsOf (childSignalHandler ctx sigs).trace = sigs.map (fun s => (-pid, s)) ∧
    (childSignalHandler ctx sigs).trace =
      Effect.call (Call.notify [Signal.SIGTERM, Signal.SIGINT])
        :: (sigs.map (fun s =>
            [Effect.call (Call.log
                ⟨"sending %s to child (pid = %d)", [Arg.sig s, Arg.pid pid]⟩),
              Effect.call (Call.kill (-pid) s)])).flatten := by
  refine ⟨?_, ?_, ?_⟩
  · simp [childSignalHandler, h]
  · simp [childSignalHandler, h, killsOf, killsOf_forwardLoop]
  · simp only [childSignalHandler, h, List.cons.injEq, true_and]
    induction sigs with
    | nil => rfl
    | cons s rest ih => simp [forwardLoop, ih]

theorem childSignalHandler_forwards_witness :
    killsOf (childSignalHandler ⟨true, some 42, []⟩
        [Signal.SIGTERM, Signal.SIGINT, Signal.SIGTERM]).trace
      = [(-42, Signal.SIGTERM), (-42, Signal.SIGINT), (-42, Signal.SIGTERM)] :=
  (childSignalHandler_forwards ⟨true, some 42, []⟩ 42
    [Signal.SIGTERM, Signal.SIGINT, Signal.SIGTERM] rfl).2.1

/-- C7 (reload isolation). Handling a reload trigger, whatever the result of
`cert.reload`, performs only log lines, calls on the status reporter and the
reload call: none of its effects is a store into `proxy.quit`, a `Close`, an
armed timer, a status-endpoint shutdown request or a `syscall.Kill`; the loop
goes on with the same `proxy`, and in the context only the credential manager
has changed. -/
theorem reload_is_isolated (T : Int) (cl : List Closer) (ctx : Context)
    (p : Proxy) (t : Trigger) (rest : List Trigger) (ht : isReload t = true) :
    ∃ eff ctx',
      signalLoop T cl ctx p (t :: rest) =
        { signalLoop T cl ctx' p rest with
          trace := eff ++ (signalLoop T cl ctx' p rest).trace } ∧
      (∀ e ∈ eff, e.isShutdownEffect = false ∧
        (e.isLog = true ∨ e.isStatusOrCert = true)) ∧
      eff ≠ [] ∧
      ctx'.child = ctx.child ∧ ctx'.statusHTTP = ctx.statusHTTP ∧
      (signalLoop T cl ctx p [t]).proxy = p ∧
      (signalLoop T cl ctx p [t]).trace = eff := by
  have hterm : isTermination t = false := by
    cases t with
    | watcher => rfl
    | signal sig =>
      have hu : sig = Signal.SIGUSR1 := by simpa [isReload] using ht
      subst hu
      rfl
  refine ⟨stepEffects t (Cert.reload ctx.cert).1, stepContext t ctx,
    signalLoop_step T cl ctx p t rest hterm, ?_, ?_,
    stepContext_child t ctx, stepContext_statusHTTP t ctx, ?_, ?_⟩
  · intro e he
    have h := stepEffects_mem t _ e he
    refine ⟨?_, h⟩
    rcases e with c | ⟨d, f⟩
    · cases c <;> simp_all [Effect.isLog, Effect.isStatusOrCert, Effect.isShutdownEffect]
    · simp [Effect.isLog, Effect.isStatusOrCert] at h
  · cases t with
    | watcher => simp [stepEffects]
    | signal sig =>
      have hu : sig = Signal.SIGUSR1 := by simpa [isReload] using ht
      subst hu
      simp [stepEffects]
  · rw [signalLoop_step T cl ctx p t [] hterm]
    simp [signalLoop]
  · rw [signalLoop_step T cl ctx p t [] hterm]
    simp [signalLoop]

theorem reload_is_isolated_witness :
    (signalLoop 5 [⟨0, none⟩] ⟨true, some 42, [some "bad"]⟩ ⟨0⟩
      [Trigger.signal Signal.SIGUSR1]).proxy = ⟨0⟩ := by
  obtain ⟨eff, ctx', -, -, -, -, -, h, -⟩ := reload_is_isolated 5 [⟨0, none⟩]
    ⟨true, some 42, [some "bad"]⟩ ⟨0⟩ (Trigger.signal Signal.SIGUSR1) [] (by decide)
  exact h

/-- C8, as stated, fails: with a closeable whose `Close` returns the error
"close failed", the trace of a termination holds no log line carrying that
error; its log lines are the two fixed ones, the same as when every `Close`
succeeds. -/
theorem close_failure_not_logged :
    closeFailuresLogged [⟨0, some "close failed"⟩, ⟨1, none⟩]
        (signalHandler 5 [⟨0, some "close failed"⟩, ⟨1, none⟩] ⟨false, none, []⟩ ⟨0⟩
          [Trigger.signal Signal.SIGTERM]).trace = false ∧
      (signalHandler 5 [⟨0, some "close failed"⟩, ⟨1, none⟩] ⟨false, none, []⟩ ⟨0⟩
          [Trigger.signal Signal.SIGTERM]).trace =
        [Effect.call (Call.notify
            [Signal.SIGUSR1, Signal.SIGTERM, Signal.SIGINT, Signal.SIGCHLD]),
          Effect.call (Call.log ⟨"received %s, shutting down", [Arg.sig Signal.SIGTERM]⟩),
          Effect.afterFunc 5
            [Call.log ⟨"graceful shutdown timeout: forcing exit", []⟩, Call.exit 1],
          Effect.call (Call.storeQuit 1),
          Effect.call (Call.close ⟨0, some "close failed"⟩),
          Effect.call (Call.close ⟨1, none⟩),
          Effect.call (Call.log ⟨"shutdown proxy, waiting for drain/child exit", []⟩),
          Effect.call Call.stop] ∧
      (signalHandler 5 [⟨0, some "close failed"⟩, ⟨1, none⟩] ⟨false, none, []⟩ ⟨0⟩
          [Trigger.signal Signal.SIGTERM]).trace.filter Effect.isLog =
        (signalHandler 5 [⟨0, none⟩, ⟨1, none⟩] ⟨false, none, []⟩ ⟨0⟩
          [Trigger.signal Signal.SIGTERM]).trace.filter Effect.isLog := by
  decide

/-- C8, amended. The results of the `Close` calls are dropped: on the first
termination trigger the part of the trace from its log line on has exactly
two log lines, the one announcing the signal and the final one, whatever the
closeables and the results of their `Close` calls, and its `Close` calls are
one per closeable in list order. -/
theorem close_results_dropped (T : Int) (cl : List Closer) (ctx : Context)
    (p : Proxy) (pre : List Trigger) (sig : Signal) (post : List Trigger)
    (hpre : ∀ x ∈ pre, isTermination x = false)
    (ht : isTermination (Trigger.signal sig) = true) :
    ∃ tail,
      (signalHandler T cl ctx p (pre ++ Trigger.signal sig :: post)).trace =
        [Effect.call (Call.notify
            [Signal.SIGUSR1, Signal.SIGTERM, Signal.SIGINT, Signal.SIGCHLD])]
          ++ (signalLoop T cl ctx p pre).trace ++ tail ∧
      tail.filter Effect.isLog =
        [Effect.call (Call.log ⟨"received %s, shutting down", [Arg.sig sig]⟩),
          Effect.call (Call.log ⟨"shutdown proxy, waiting for drain/child exit", []⟩)] ∧
      tail.filter Effect.isClose = cl.map (fun c => Effect.call (Call.close c)) ∧
      (signalLoop T cl ctx p pre).trace.filter Effect.isClose = [] := by
  have hmap : (cl.map (fun c => Effect.call (Call.close c))).filter Effect.isClose
      = cl.map (fun c => Effect.call (Call.close c)) := by
    rw [List.filter_eq_self]
    intro e he
    obtain ⟨c, -, rfl⟩ := List.mem_map.mp he
    rfl
  have hlog : (cl.map (fun c => Effect.call (Call.close c))).filter Effect.isLog = [] := by
    rw [List.filter_eq_nil_iff]
    intro e he
    obtain ⟨c, -, rfl⟩ := List.mem_map.mp he
    simp [Effect.isLog]
  refine ⟨[Effect.call (Call.log ⟨"received %s, shutting down", [Arg.sig sig]⟩)]
      ++ (if ctx.statusHTTP then [Effect.call Call.statusShutdown] else [])
      ++ terminationSequence T ctx cl
      ++ [Effect.call (Call.log ⟨"shutdown proxy, waiting for drain/child exit", []⟩),
          Effect.call Call.stop], ?_, ?_, ?_, ?_⟩
  · simp [signalHandler, signalLoop_split T cl ctx p pre sig post hpre ht]
  · cases ctx.statusHTTP <;>
      simp [terminationSequence, List.filter_append, hlog, Effect.isLog, List.filter_cons]
  · cases ctx.statusHTTP <;>
      simp [terminationSequence, List.filter_append, hmap, Effect.isClose, List.filter_cons]
  · rw [List.filter_eq_nil_iff]
    intro e he
    have h := (signalLoop_noTermination T cl p pre hpre ctx).2.2.2.2.2 e he
    rcases e with c | ⟨d, f⟩
    · cases c <;> simp_all [Effect.isLog, Effect.isStatusOrCert, Effect.isClose]
    · simp [Effect.isLog, Effect.isStatusOrCert] at h

theorem close_results_dropped_witness :
    ∃ tail,
      (signalHandler 5 [⟨0, some "close failed"⟩] ⟨false, none, []⟩ ⟨0⟩
        ([Trigger.watcher] ++ Trigger.signal Signal.SIGINT :: [])).trace =
        [Effect.call (Call.notify
            [Signal.SIGUSR1, Signal.SIGTERM, Signal.SIGINT, Signal.SIGCHLD])]
          ++ (signalLoop 5 [⟨0, some "close failed"⟩] ⟨false, none, []⟩ ⟨0⟩
              [Trigger.watcher]).trace ++ tail ∧
      tail.filter Effect.isLog =
        [Effect.call (Call.log ⟨"received %s, shutting down", [Arg.sig Signal.SIGINT]⟩),
          Effect.call (Call.log ⟨"shutdown proxy, waiting for drain/child exit", []⟩)] := by
  obtain ⟨tail, h1, h2, -, -⟩ := close_results_dropped 5 [⟨0, some "close failed"⟩]
    ⟨false, none, []⟩ ⟨0⟩ [Trigger.watcher] Signal.SIGINT [] (by decide) (by decide)
  exact ⟨tail, h1, h2⟩

/-- C9, as stated, fails: a watcher notification is not announced. Its first
effect is `status.Reloading`, and the only log line of the reload is the one
of its completion. -/
theorem watcher_not_announced :
    announcedFirst (signalLoop 5 [] ⟨false, none, []⟩ ⟨0⟩ [Trigger.watcher]).trace = false ∧
      (signalLoop 5 [] ⟨false, none, []⟩ ⟨0⟩ [Trigger.watcher]).trace =
        [Effect.call Call.statusReloading,
          Effect.call Call.certReload,
          Effect.call (Call.log ⟨"reloading complete", []⟩),
          Effect.call Call.statusListening] := by
  decide

/-- C9, amended. The first effect of handling SIGINT, SIGTERM or SIGCHLD is the
log line "received %s, shutting down" with that signal, and the first effect
of handling SIGUSR1 is the log line "received %s, reloading certificates"; a
watcher notification is not announced, its first effect is
`status.Reloading`. For a reload from either kind of trigger the log lines
are: the announcement for SIGUSR1 only, the error line when `cert.reload`
fails, and last the line "reloading complete". -/
theorem signals_announced (T : Int) (cl : List Closer) (ctx : Context)
    (p : Proxy) (rest : List Trigger) :
    (∀ sig, isTermination (Trigger.signal sig) = true →
      (signalLoop T cl ctx p (Trigger.signal sig :: rest)).trace.head? = some
        (Effect.call (Call.log ⟨"received %s, shutting down", [Arg.sig sig]⟩))) ∧
    (signalLoop T cl ctx p (Trigger.signal Signal.SIGUSR1 :: rest)).trace.head? = some
      (Effect.call (Call.log
        ⟨"received %s, reloading certificates", [Arg.sig Signal.SIGUSR1]⟩)) ∧
    (signalLoop T cl ctx p (Trigger.watcher :: rest)).trace.head? = some
      (Effect.call Call.statusReloading) ∧
    (∀ t, isReload t = true →
      ∃ eff,
        (signalLoop T cl ctx p (t :: rest)).trace = eff
          ++ (signalLoop T cl { ctx with cert := (Cert.reload ctx.cert).2 } p rest).trace ∧
        eff.filter Effect.isLog =
          (if t = Trigger.signal Signal.SIGUSR1 then
              [Effect.call (Call.log
                ⟨"received %s, reloading certificates", [Arg.sig Signal.SIGUSR1]⟩)]
            else [])
          ++ (match (Cert.reload ctx.cert).1 with
              | some err => [Effect.call (Call.log ⟨"error reloading: %s", [Arg.err err]⟩)]
              | none => [])
          ++ [Effect.call (Call.log ⟨"reloading complete", []⟩)]) := by
  refine ⟨?_, ?_, ?_, ?_⟩
  · intro sig ht
    rw [signalLoop_termination T cl ctx p sig rest ht]
    simp
  · simp [signalLoop]
  · simp [signalLoop]
  · intro t ht
    cases t with
    | watcher =>
      refine ⟨_, by simp only [signalLoop]; rfl, ?_⟩
      cases (Cert.reload ctx.cert).1 <;> simp [List.filter_cons, Effect.isLog]
    | signal sig =>
      have hu : sig = Signal.SIGUSR1 := by simpa [isReload] using ht
      subst hu
      refine ⟨[Effect.call (Call.log
            ⟨"received %s, reloading certificates", [Arg.sig Signal.SIGUSR1]⟩),
          Effect.call Call.statusReloading, Effect.call Call.certReload]
          ++ (match (Cert.reload ctx.cert).1 with
              | some err => [Effect.call (Call.log ⟨"error reloading: %s", [Arg.err err]⟩)]
              | none => [])
          ++ [Effect.call (Call.log ⟨"reloading complete", []⟩),
              Effect.call Call.statusListening], by simp [signalLoop], ?_⟩
      cases (Cert.reload ctx.cert).1 <;> simp [List.filter_cons, Effect.isLog]

theorem signals_announced_witness :
    (signalLoop 5 [] ⟨false, none, []⟩ ⟨0⟩
      (Trigger.signal Signal.SIGCHLD :: [Trigger.watcher])).trace.head? = some
        (Effect.call (Call.log ⟨"received %s, shutting down", [Arg.sig Signal.SIGCHLD]⟩)) :=
  (signals_announced 5 [] ⟨false, none, []⟩ ⟨0⟩ [Trigger.watcher]).1
    Signal.SIGCHLD (by decide)

/-- C10 (no child). Without a child, `childSignalHandler` returns at once with
an empty trace (no subscription, no signal sent), and for every trigger
sequence no effect of `signalHandler` is a `syscall.Kill` or arms a timer
whose function calls `syscall.Kill`; `onExpire` itself makes no
`syscall.Kill` call. -/
theorem no_child_no_kill (T : Int) (cl : List Closer) (ctx : Context) (p : Proxy)
    (ts : List Trigger) (sigs : List Signal) (h : ctx.child = none) :
    childSignalHandler ctx sigs = { trace := [], returned := true } ∧
    (∀ e ∈ (signalHandler T cl ctx p ts).trace, e.kills = false) ∧
    killsOf (signalHandler T cl ctx p ts).trace = [] ∧
    (onExpire ctx).any Call.isKill = false := by
  have hk := signalLoop_no_kill T cl p ts ctx h
  have hall : ∀ e ∈ (signalHandler T cl ctx p ts).trace, e.kills = false := by
    intro e he
    simp only [signalHandler, List.mem_append, List.mem_singleton] at he
    rcases he with (rfl | he) | he
    · rfl
    · exact hk e he
    · split at he
      · simp only [List.mem_singleton] at he
        subst he
        rfl
      · simp at he
  refine ⟨?_, hall, ?_, onExpire_no_kill ctx h⟩
  · simp [childSignalHandler, h]
  · generalize (signalHandler T cl ctx p ts).trace = tr at hall
    induction tr with
    | nil => rfl
    | cons e tr ih =>
      have he := hall e (List.mem_cons_self _ _)
      have ih' := ih (fun x hx => hall x (List.mem_cons_of_mem _ hx))
      rcases e with c | ⟨d, f⟩
      · cases c <;> simp_all [killsOf, Effect.kills, Call.isKill]
      · simpa [killsOf] using ih'

theorem no_child_no_kill_witness :
    childSignalHandler ⟨true, none, []⟩ [Signal.SIGTERM]
        = { trace := [], returned := true } ∧
      killsOf (signalHandler 5 [⟨0, none⟩] ⟨true, none, []⟩ ⟨0⟩
        [Trigger.watcher, Trigger.signal Signal.SIGTERM]).trace = [] :=
  ⟨(no_child_no_kill 5 [⟨0, none⟩] ⟨true, none, []⟩ ⟨0⟩
      [Trigger.watcher, Trigger.signal Signal.SIGTERM] [Signal.SIGTERM] rfl).1,
   (no_child_no_kill 5 [⟨0, none⟩] ⟨true, none, []⟩ ⟨0⟩
      [Trigger.watcher, Trigger.signal Signal.SIGTERM] [Signal.SIGTERM] rfl).2.2.1⟩

end Ghostunnel
